import Mathlib

/-!
Shallow embedding of `train_agent.py` from the text-localization-agent
repository: the evaluation-episode runner `run_localization_evaluation_episodes`,
the log handler `TensorBoardEvaluationLoggingHandler` (its `emit` method, the
two regular expressions it searches for, and its fixed-size numpy buffers), plus
the wiring in `main` that constructs the handler with `eval_run_count = 10`.

Numbers are modelled exactly: Python ints as `Int`, Python floats and numpy
float64 values as `ℚ` tagged with their dynamic kind (`PyNum`), so that the
"cast to plain float" policy discussed in the spec is observable in the model.
IEEE rounding is not modelled; no claim here depends on it.
-/

/-- Dynamic kind of a Python numeric value as it flows through the evaluation
code: a plain `int`, a plain `float`, or a numpy boxed float (`np.float64`).
The rational payload is the exact numeric value. -/
inductive PyNum where
  | int (n : Int)
  | float (q : ℚ)
  | npfloat (q : ℚ)
deriving DecidableEq

/-- Numeric value of a `PyNum`. -/
def PyNum.toRat : PyNum → ℚ
  | .int n => (n : ℚ)
  | .float q => q
  | .npfloat q => q

/-- Python `+` on numbers, with numpy promotion: `int + int` stays `int`,
any operand being a numpy float makes the result a numpy float, and otherwise
the result is a plain float. -/
def pyAdd : PyNum → PyNum → PyNum
  | .int a, .int b => .int (a + b)
  | .npfloat a, b => .npfloat (a + b.toRat)
  | a, .npfloat b => .npfloat (a.toRat + b)
  | a, b => .float (a.toRat + b.toRat)

/-- Python `float(x)` applied to a number: the same value, as a plain float. -/
def pyfloat (x : PyNum) : PyNum := .float x.toRat

/-- True exactly for a plain (non-numpy) Python float. -/
def PyNum.isPlainFloat : PyNum → Bool
  | .float _ => true
  | _ => false

/-- Value carried by a scalar metric sent to the summary writer: the handler
passes either a number or (on the new-best path) a raw regex-captured string. -/
inductive MVal where
  | str (s : String)
  | num (q : ℚ)
deriving DecidableEq

/-- True exactly when the metric value is numeric. -/
def MVal.isNum : MVal → Bool
  | .num _ => true
  | .str _ => false

/-- One `add_scalar(name, value, step)` call observed on the summary writer. -/
structure MetricEvent where
  name : String
  value : MVal
  step : Nat
deriving DecidableEq

/-! ## The two regular expressions of `TensorBoardEvaluationLoggingHandler.emit`

`re.search(r'The best score is updated ([^ ]*) -> ([^ ]*)', msg)` and
`re.search(r'evaluation episode ([^ ]*) length:([^ ]*) R:([^ ]*) IoU:([^ ]*) Max_IoU:([^ ]*)', msg)`.

Both patterns alternate literal pieces with greedy `([^ ]*)` groups.  Each
group is immediately followed either by a literal beginning with a space or by
the end of the pattern, and a group can never contain a space, so the greedy
match is forced: every group captures the maximal run of non-space characters
at its position.  `re.search` tries successive start positions left to right;
`searchAux` below does exactly that. -/

/-- Drops the literal `p` from the front of `s`; `none` if `s` does not start
with `p`. -/
def dropPre : List Char → List Char → Option (List Char)
  | [], s => some s
  | _ :: _, [] => none
  | p :: ps, c :: cs => if p = c then dropPre ps cs else none

/-- Splits off the maximal leading run of non-space characters
(what a greedy `([^ ]*)` captures when a space or the pattern end follows). -/
def spanNonSpace : List Char → List Char × List Char
  | [] => ([], [])
  | c :: cs =>
    if c = ' ' then ([], c :: cs)
    else
      let r := spanNonSpace cs
      (c :: r.1, r.2)

/-- Tries the positional matcher `f` at every start position of `s`, left to
right, like `re.search`. -/
def searchAux {α : Type} (f : List Char → Option α) : List Char → Option α
  | [] => f []
  | c :: cs =>
    match f (c :: cs) with
    | some x => some x
    | none => searchAux f cs

/-- Matches `The best score is updated ([^ ]*) -> ([^ ]*)` anchored at the
start of `s`, returning the two captured groups. -/
def matchNewBestAt (s : List Char) : Option (String × String) :=
  match dropPre ("The best score is updated ".toList) s with
  | none => none
  | some r1 =>
    let g1 := spanNonSpace r1
    match dropPre (" -> ".toList) g1.2 with
    | none => none
    | some r2 =>
      let g2 := spanNonSpace r2
      some (String.mk g1.1, String.mk g2.1)

/-- `re.search` of the new-best pattern over the whole message. -/
def searchNewBest (msg : String) : Option (String × String) :=
  searchAux matchNewBestAt msg.toList

/-- Matches
`evaluation episode ([^ ]*) length:([^ ]*) R:([^ ]*) IoU:([^ ]*) Max_IoU:([^ ]*)`
anchored at the start of `s`, returning the five captured groups. -/
def matchEpisodeAt (s : List Char) : Option (String × String × String × String × String) :=
  match dropPre ("evaluation episode ".toList) s with
  | none => none
  | some r1 =>
    let g1 := spanNonSpace r1
    match dropPre (" length:".toList) g1.2 with
    | none => none
    | some r2 =>
      let g2 := spanNonSpace r2
      match dropPre (" R:".toList) g2.2 with
      | none => none
      | some r3 =>
        let g3 := spanNonSpace r3
        match dropPre (" IoU:".toList) g3.2 with
        | none => none
        | some r4 =>
          let g4 := spanNonSpace r4
          match dropPre (" Max_IoU:".toList) g4.2 with
          | none => none
          | some r5 =>
            let g5 := spanNonSpace r5
            some (String.mk g1.1, String.mk g2.1, String.mk g3.1,
              String.mk g4.1, String.mk g5.1)

/-- `re.search` of the episode pattern over the whole message. -/
def searchEpisode (msg : String) :
    Option (String × String × String × String × String) :=
  searchAux matchEpisodeAt msg.toList

/-! ## Python `int(...)` and `float(...)` on strings

Models the decimal core used by the handler on regex captures: an optional
sign followed by digits for `int`; an optional sign, a decimal mantissa and an
optional exponent for `float`.  (Python's extras — surrounding whitespace,
digit-group underscores, `inf`/`nan` — never appear in the lines at issue and
are not modelled.)  `none` corresponds to `ValueError`. -/

/-- Value of a digit character, `none` for a non-digit. -/
def digitVal (c : Char) : Option Nat :=
  if '0' ≤ c ∧ c ≤ '9' then some (c.toNat - '0'.toNat) else none

/-- Reads a run of digits, returning the accumulated value and the count of
digits consumed, plus the rest. -/
def readDigits : List Char → Nat → Nat → Nat × Nat × List Char
  | [], acc, k => (acc, k, [])
  | c :: cs, acc, k =>
    match digitVal c with
    | some d => readDigits cs (acc * 10 + d) (k + 1)
    | none => (acc, k, c :: cs)

/-- Optional leading sign; returns `true` for a minus sign and the rest. -/
def readSign : List Char → Bool × List Char
  | '-' :: cs => (true, cs)
  | '+' :: cs => (false, cs)
  | cs => (false, cs)

/-- Python `int(s)` on the decimal core: optional sign then one or more
digits, consuming the whole string. -/
def pyIntParse (s : String) : Option Int :=
  let p1 := readSign s.toList
  match readDigits p1.2 0 0 with
  | (v, k, rest) =>
    if k = 0 ∨ rest ≠ [] then none
    else some (if p1.1 then -(v : Int) else (v : Int))

/-- Reads an optional exponent part `e<sign?><digits>` as a power of ten;
`none` signals a malformed exponent. -/
def readExp : List Char → Option (Int × List Char)
  | 'e' :: cs =>
    let p := readSign cs
    match readDigits p.2 0 0 with
    | (v, k, rest) =>
      if k = 0 then none
      else some (if p.1 then -(v : Int) else (v : Int), rest)
  | 'E' :: cs =>
    let p := readSign cs
    match readDigits p.2 0 0 with
    | (v, k, rest) =>
      if k = 0 then none
      else some (if p.1 then -(v : Int) else (v : Int), rest)
  | cs => some (0, cs)

/-- Python `float(s)` on the decimal core: optional sign, digits with an
optional decimal point (at least one digit overall), optional exponent,
consuming the whole string.  The exact decimal value is returned as a
rational. -/
def pyFloatParse (s : String) : Option ℚ :=
  let p1 := readSign s.toList
  match readDigits p1.2 0 0 with
  | (ip, ik, rest1) =>
    let frac : Option (Nat × Nat × List Char) :=
      match rest1 with
      | '.' :: cs =>
        match readDigits cs 0 0 with
        | (fv, fk, rest2) => some (fv, fk, rest2)
      | _ => some (0, 0, rest1)
    match frac with
    | none => none
    | some (fv, fk, rest2) =>
      if ik = 0 ∧ fk = 0 then none
      else
        match readExp rest2 with
        | none => none
        | some (ex, rest3) =>
          if rest3 ≠ [] then none
          else
            let mant : ℚ := (ip : ℚ) + (fv : ℚ) / ((10 : ℚ) ^ fk)
            let signed : ℚ := if p1.1 then -mant else mant
            some (signed * (10 : ℚ) ^ ex)

/-! ## `TensorBoardEvaluationLoggingHandler`

State and `emit` method.  The four `np.empty(eval_run_count)` buffers are
length-`eval_run_count` lists of rationals whose initial contents are
arbitrary (numpy leaves them uninitialised); `mkHandlerState` takes them as
parameters.  Exceptions escaping `emit` (`ValueError` from `int`/`float`,
`IndexError` from a numpy index out of range) are modelled by `Except`. -/

/-- The mutable state of a `TensorBoardEvaluationLoggingHandler`. -/
structure HandlerState where
  eval_run_count : Nat
  episode_lengths : List ℚ
  episode_rewards : List ℚ
  episode_ious : List ℚ
  episode_max_ious : List ℚ
deriving DecidableEq

/-- Builds a handler state as `__init__` does, with the given (arbitrary)
initial contents of the four `np.empty(eval_run_count)` buffers. -/
def mkHandlerState (k : Nat) (b1 b2 b3 b4 : List ℚ) : HandlerState :=
  ⟨k, b1, b2, b3, b4⟩

/-- The hardcoded `eval_run_count = 10` that `main` passes to the handler
constructor (independent of the configured `eval_n_episodes`). -/
def eval_run_count : Nat := 10

/-- All four buffers have the length the constructor gave them. -/
def buffersSized (st : HandlerState) : Prop :=
  st.episode_lengths.length = st.eval_run_count ∧
  st.episode_rewards.length = st.eval_run_count ∧
  st.episode_ious.length = st.eval_run_count ∧
  st.episode_max_ious.length = st.eval_run_count

/-- Numpy `arr[i] = v` on a 1-d array: in-range and negative (wrap-around)
indices assign, anything else raises `IndexError` (`none`). -/
def npSet (l : List ℚ) (i : Int) (v : ℚ) : Option (List ℚ) :=
  if 0 ≤ i ∧ i < (l.length : Int) then some (l.set i.toNat v)
  else if -(l.length : Int) ≤ i ∧ i < 0 then some (l.set (i + l.length).toNat v)
  else none

/-- `np.mean` of a 1-d array, exactly. -/
def npMean (l : List ℚ) : ℚ := l.sum / (l.length : ℚ)

/-- Insertion into a sorted list of rationals. -/
def insertRat (x : ℚ) : List ℚ → List ℚ
  | [] => [x]
  | y :: ys => if x ≤ y then x :: y :: ys else y :: insertRat x ys

/-- Insertion sort of rationals (ascending), as numpy sorts for `np.median`. -/
def sortRats : List ℚ → List ℚ
  | [] => []
  | x :: xs => insertRat x (sortRats xs)

/-- `np.median` of a 1-d array: middle of the sorted data, averaging the two
middle elements when the length is even. -/
def npMedian (l : List ℚ) : ℚ :=
  let s := sortRats l
  let n := l.length
  if n = 0 then 0
  else if n % 2 = 1 then s.getD (n / 2) 0
  else (s.getD (n / 2 - 1) 0 + s.getD (n / 2) 0) / 2

/-- `np.var` of a 1-d array: the population variance, exactly. -/
def npVar (l : List ℚ) : ℚ :=
  (l.map (fun x => (x - npMean l) ^ 2)).sum / (l.length : ℚ)

/-- The seven aggregate `add_scalar` calls issued when the round-completing
episode index is processed, in source order, all carrying the same step. -/
def burstEvents (st : HandlerState) (t : Nat) : List MetricEvent :=
  [⟨"evaluation_length_mean", .num (npMean st.episode_lengths), t⟩,
   ⟨"evaluation_reward_mean", .num (npMean st.episode_rewards), t⟩,
   ⟨"evaluation_reward_median", .num (npMedian st.episode_rewards), t⟩,
   ⟨"evaluation_reward_variance", .num (npVar st.episode_rewards), t⟩,
   ⟨"evaluation_iou_mean", .num (npMean st.episode_ious), t⟩,
   ⟨"evaluation_iou_median", .num (npMedian st.episode_ious), t⟩,
   ⟨"evaluation_max_iou_mean", .num (npMean st.episode_max_ious), t⟩]

/-- `TensorBoardEvaluationLoggingHandler.emit`.  `agent_t` is the value of
`self.agent.t` (the agent's global training step) during this call.  Returns
the updated handler state and the list of `add_scalar` calls made, or the
exception the Python code would raise. -/
def emit (st : HandlerState) (agent_t : Nat) (msg : String) :
    Except String (HandlerState × List MetricEvent) :=
  let evs1 : List MetricEvent :=
    match searchNewBest msg with
    | some g => [⟨"evaluation_new_best_score", .str g.2, agent_t⟩]
    | none => []
  match searchEpisode msg with
  | none => .ok (st, evs1)
  | some (g1, g2, g3, g4, g5) =>
    match pyIntParse g1, pyIntParse g2, pyFloatParse g3,
        pyFloatParse g4, pyFloatParse g5 with
    | some en, some el, some er, some eiou, some emiou =>
      match npSet st.episode_lengths en (el : ℚ), npSet st.episode_rewards en er,
          npSet st.episode_ious en eiou, npSet st.episode_max_ious en emiou with
      | some bl, some br, some bi, some bm =>
        let st1 : HandlerState :=
          { st with episode_lengths := bl, episode_rewards := br,
                    episode_ious := bi, episode_max_ious := bm }
        if en = (st.eval_run_count : Int) - 1 then
          .ok (st1, evs1 ++ burstEvents st1 agent_t)
        else
          .ok (st1, evs1)
      | _, _, _, _ => .error "IndexError"
    | _, _, _, _, _ => .error "ValueError"

/-- Feeds a sequence of `(agent.t at emission time, message)` pairs through
`emit`, threading the handler state and concatenating the scalar calls. -/
def processRound (st : HandlerState) :
    List (Nat × String) → Except String (HandlerState × List MetricEvent)
  | [] => .ok (st, [])
  | p :: rest =>
    match emit st p.1 p.2 with
    | .error e => .error e
    | .ok (st1, evs) =>
      match processRound st1 rest with
      | .error e => .error e
      | .ok (st2, evs2) => .ok (st2, evs ++ evs2)

/-- The tagged event the spec's LogEventParser abstraction recovers from one
log line, derived from the two regex branches of `emit` and their `int`/
`float` conversions: the new-best branch wins when both fire (the handler
would act on both), and a capture that fails numeric conversion is the
`ValueError` the handler would raise. -/
inductive LogEvent where
  | newBest (score : String)
  | episodeResult (index : Int) (length : Int) (reward iou max_iou : ℚ)
  | noMatch
deriving DecidableEq

/-- Parses one log message with the two regexes of `emit`. -/
def logEventParse (msg : String) : Except String LogEvent :=
  match searchNewBest msg with
  | some g => .ok (.newBest g.2)
  | none =>
    match searchEpisode msg with
    | none => .ok .noMatch
    | some (g1, g2, g3, g4, g5) =>
      match pyIntParse g1, pyIntParse g2, pyFloatParse g3,
          pyFloatParse g4, pyFloatParse g5 with
      | some en, some el, some er, some eiou, some emiou =>
        .ok (.episodeResult en el er eiou emiou)
      | _, _, _, _, _ => .error "ValueError"

/-- Result of a successful full parse of the episode pattern: the episode
index together with the other four parsed fields. -/
def episodeParse (msg : String) : Option (Int × Int × ℚ × ℚ × ℚ) :=
  match searchEpisode msg with
  | none => none
  | some (g1, g2, g3, g4, g5) =>
    match pyIntParse g1, pyIntParse g2, pyFloatParse g3,
        pyFloatParse g4, pyFloatParse g5 with
    | some en, some el, some er, some eiou, some emiou =>
      some (en, el, er, eiou, emiou)
    | _, _, _, _, _ => none

/-- A message that an in-range evaluation-episode log line produces: it does
not match the new-best pattern, fully parses as an episode result with index
`i`, and `i` addresses a slot of a size-`k` buffer. -/
def goodEpisodeMsg (k : Nat) (msg : String) (i : Int) : Prop :=
  searchNewBest msg = none ∧
  (episodeParse msg).map (fun x => x.1) = some i ∧
  0 ≤ i ∧ i < (k : Int)

instance (k : Nat) (msg : String) (i : Int) : Decidable (goodEpisodeMsg k msg i) := by
  unfold goodEpisodeMsg; infer_instance

/-! ## `run_localization_evaluation_episodes`

The environment and agent are abstract collaborators: mutable objects become
explicit state threading (`E` for the environment object, `A` for the agent).
The unbounded `while not (done or t == max_episode_len)` loop is embedded with
an explicit fuel parameter: `evalLoop` returns `none` exactly when the loop is
still running after `fuel` iterations, so termination facts are statements
about fuel sufficiency.  Each call made on the agent and each episode log line
is recorded in a trace. -/

/-- Capability interface of the environment/agent pair used by the evaluation
runner.  `step` returns, in source order, the new observation, the reward and
the `done` flag (the `info` component of the Python 4-tuple is bound but never
used by the runner and is omitted). -/
structure World (E A Obs Act : Type) where
  reset : E → E × Obs
  step : E → Act → E × Obs × PyNum × Bool
  act : A → Obs → A × Act
  stop_episode : A → A
  iou : E → PyNum
  max_iou : E → PyNum

/-- The episode log line `'evaluation episode %s length:%s R:%s IoU:%s Max_IoU:%s'`
as the structured record of the five values formatted into it; `rVal` is the
raw accumulated return `test_r` (logged without conversion). -/
structure LogRecord where
  idx : Nat
  len : Nat
  rVal : PyNum
  iouVal : PyNum
  maxIouVal : PyNum
deriving DecidableEq

/-- Observable calls and log emissions of the evaluation runner, in order. -/
inductive TraceEv where
  | callAct
  | callStep
  | callStopEpisode
  | logEpisode (r : LogRecord)
deriving DecidableEq

/-- True exactly for a `stop_episode` call event. -/
def isStopEv : TraceEv → Bool
  | .callStopEpisode => true
  | _ => false

/-- True exactly for an `env.step` call event (one per loop iteration). -/
def isStepEv : TraceEv → Bool
  | .callStep => true
  | _ => false

/-- Number of `stop_episode` calls in a trace. -/
def countStop (tr : List TraceEv) : Nat := tr.countP isStopEv

/-- Number of `env.step` calls in a trace. -/
def countStep (tr : List TraceEv) : Nat := tr.countP isStepEv

/-- The episode log records contained in a trace, in order. -/
def logRecords (tr : List TraceEv) : List LogRecord :=
  tr.filterMap fun ev =>
    match ev with
    | .logEpisode r => some r
    | _ => none

/-- State of the inner while loop at exit: final environment and agent,
accumulated return `test_r`, step counter `t`, the `done` flag, and the trace
of calls made during the loop. -/
structure LoopResult (E A : Type) where
  env : E
  agent : A
  test_r : PyNum
  tFinal : Nat
  done : Bool
  trace : List TraceEv
deriving DecidableEq

/-- The inner `while not (done or t == max_episode_len)` loop.  `maxLen` is
`max_episode_len` (`none` for Python `None`, in which case `t == None` is
always false).  Returns `none` if the loop has not exited after `fuel`
iterations. -/
def evalLoop {E A Obs Act : Type} (w : World E A Obs Act) (maxLen : Option Nat)
    (fuel : Nat) (e : E) (a : A) (obs : Obs) (done : Bool) (test_r : PyNum)
    (t : Nat) : Option (LoopResult E A) :=
  if done = true ∨ maxLen = some t then some ⟨e, a, test_r, t, done, []⟩
  else
    match fuel with
    | 0 => none
    | Nat.succ fuel1 =>
      let p := w.act a obs
      let q := w.step e p.2
      match evalLoop w maxLen fuel1 q.1 p.1 q.2.1 q.2.2.2
          (pyAdd test_r q.2.2.1) (t + 1) with
      | none => none
      | some lr =>
        some { lr with trace := TraceEv.callAct :: TraceEv.callStep :: lr.trace }

/-- Result of one evaluation episode: final environment and agent, the score
appended to `scores` (which is `float(test_r)`), the loop's `done` flag, the
log record emitted, and the full trace of the episode. -/
structure EpisodeOutcome (E A : Type) where
  env : E
  agent : A
  score : PyNum
  done : Bool
  logRec : LogRecord
  trace : List TraceEv
deriving DecidableEq

/-- One iteration of the `for i in range(n_episodes)` body: reset, run the
while loop, `stop_episode`, compute `iou`/`max_iou`, append `float(test_r)`
and log the episode line. -/
def runEpisode {E A Obs Act : Type} (w : World E A Obs Act)
    (maxLen : Option Nat) (fuel : Nat) (e : E) (a : A) (i : Nat) :
    Option (EpisodeOutcome E A) :=
  let r0 := w.reset e
  match evalLoop w maxLen fuel r0.1 a r0.2 false (.int 0) 0 with
  | none => none
  | some lr =>
    let a2 := w.stop_episode lr.agent
    let iouRep := if lr.done then pyfloat (w.iou lr.env) else pyfloat (.int 0)
    let miouRep := pyfloat (w.max_iou lr.env)
    let lrec : LogRecord := ⟨i, lr.tFinal, lr.test_r, iouRep, miouRep⟩
    some ⟨lr.env, a2, pyfloat lr.test_r, lr.done, lrec,
      lr.trace ++ [TraceEv.callStopEpisode, TraceEv.logEpisode lrec]⟩

/-- Result of a whole evaluation run: final environment and agent, the
returned `scores` list, and the concatenated trace of all episodes. -/
structure RunResult (E A : Type) where
  env : E
  agent : A
  scores : List PyNum
  trace : List TraceEv
deriving DecidableEq

/-- Runs the remaining `rem` episodes starting at episode index `i`. -/
def runEvalAux {E A Obs Act : Type} (w : World E A Obs Act)
    (maxLen : Option Nat) (fuel : Nat) : Nat → Nat → E → A →
    Option (RunResult E A)
  | 0, _, e, a => some ⟨e, a, [], []⟩
  | Nat.succ rem, i, e, a =>
    match runEpisode w maxLen fuel e a i with
    | none => none
    | some out =>
      match runEvalAux w maxLen fuel rem (i + 1) out.env out.agent with
      | none => none
      | some rr => some ⟨rr.env, rr.agent, out.score :: rr.scores,
          out.trace ++ rr.trace⟩

/-- `run_localization_evaluation_episodes(env, agent, n_steps, n_episodes,
max_episode_len, logger)`.  `n_steps` is accepted and ignored, as in the
source.  `fuel` bounds each episode's while loop (see `evalLoop`); the run is
`none` only if some episode's loop fails to exit within `fuel` iterations. -/
def run_localization_evaluation_episodes {E A Obs Act : Type}
    (w : World E A Obs Act) (n_steps : Option Nat) (n_episodes : Nat)
    (maxLen : Option Nat) (fuel : Nat) (e : E) (a : A) :
    Option (RunResult E A) :=
  let _ := n_steps
  runEvalAux w maxLen fuel n_episodes 0 e a

/-- Equality of `Except` results is decidable when it is on both components,
so that concrete runs of `emit`, `processRound` and `logEventParse` can be
settled by evaluation. -/
instance {ε α : Type} [DecidableEq ε] [DecidableEq α] : DecidableEq (Except ε α) :=
  fun a b =>
    match a, b with
    | .error e1, .error e2 => decidable_of_iff (e1 = e2) (by simp)
    | .error _, .ok _ => isFalse (by simp)
    | .ok _, .error _ => isFalse (by simp)
    | .ok v1, .ok v2 => decidable_of_iff (v1 = v2) (by simp)

/-! ## Concrete parse facts used by several claims -/

/-- The claim's episode line: how the five captures parse. -/
theorem parse_3 : pyIntParse "3" = some 3 := by decide

/-- Parsing the length capture of the claim's episode line. -/
theorem parse_12 : pyIntParse "12" = some 12 := by decide

/-- Parsing the reward capture of the claim's episode line. -/
theorem parse_45 : pyFloatParse "4.5" = some (4.5 : ℚ) := by
  have h : pyFloatParse "4.5" =
      some ((4 + 5 / 10 ^ (1 : Nat) : ℚ) * 10 ^ (0 : Int)) := rfl
  rw [h]; norm_num

/-- Parsing the iou capture of the claim's episode line. -/
theorem parse_082 : pyFloatParse "0.82" = some (0.82 : ℚ) := by
  have h : pyFloatParse "0.82" =
      some ((0 + 82 / 10 ^ (2 : Nat) : ℚ) * 10 ^ (0 : Int)) := rfl
  rw [h]; norm_num

/-- Parsing the max_iou capture of the claim's episode line. -/
theorem parse_091 : pyFloatParse "0.91" = some (0.91 : ℚ) := by
  have h : pyFloatParse "0.91" =
      some ((0 + 91 / 10 ^ (2 : Nat) : ℚ) * 10 ^ (0 : Int)) := rfl
  rw [h]; norm_num

/-! ## Claims about the log-event parsing (C2, C4, C5) -/

/-- C2: the log-event parser applied to
`"evaluation episode 3 length:12 R:4.5 IoU:0.82 Max_IoU:0.91"` yields an
episode result with index 3 (int), length 12 (int), reward 4.5, iou 0.82 and
max_iou 0.91; and every string matched by neither of the two recognized
regex patterns yields `noMatch` (no metric is derived from it). -/
theorem C2_parse_episode_line_and_noMatch :
    logEventParse "evaluation episode 3 length:12 R:4.5 IoU:0.82 Max_IoU:0.91" =
      .ok (.episodeResult 3 12 (4.5 : ℚ) (0.82 : ℚ) (0.91 : ℚ)) ∧
    ∀ msg : String, searchNewBest msg = none → searchEpisode msg = none →
      logEventParse msg = .ok .noMatch := by
  constructor
  · unfold logEventParse
    rw [show searchNewBest
        "evaluation episode 3 length:12 R:4.5 IoU:0.82 Max_IoU:0.91" = none
        from by decide]
    rw [show searchEpisode
        "evaluation episode 3 length:12 R:4.5 IoU:0.82 Max_IoU:0.91" =
        some ("3", "12", "4.5", "0.82", "0.91") from by decide]
    simp only [parse_3, parse_12, parse_45, parse_082, parse_091]
  · intro msg h1 h2
    unfold logEventParse
    rw [h1, h2]

/-- Witness for C2 at a concrete unrelated string. -/
theorem C2_witness :
    logEventParse "wholly unrelated log line" = .ok .noMatch :=
  C2_parse_episode_line_and_noMatch.2 "wholly unrelated log line"
    (by decide) (by decide)

/-- C5: on a message matching neither recognized pattern, `emit` raises no
exception, emits no metric, and leaves the handler state (in particular all
four aggregation buffers) unchanged. -/
theorem C5_emit_unmatched_is_silent (st : HandlerState) (t : Nat) (msg : String)
    (h1 : searchNewBest msg = none) (h2 : searchEpisode msg = none) :
    emit st t msg = .ok (st, []) := by
  unfold emit
  rw [h1, h2]

/-- Witness for C5 at a concrete handler state and unmatched message. -/
theorem C5_witness :
    emit (mkHandlerState 10 [] [] [] []) 0 "hello world" =
      .ok (mkHandlerState 10 [] [] [] [], []) :=
  C5_emit_unmatched_is_silent (mkHandlerState 10 [] [] [] []) 0 "hello world"
    (by decide) (by decide)

/-- C4 counterexample: on `"The best score is updated 10.0 -> 12.5"` the
handler emits one `evaluation_new_best_score` scalar, but its value is the
raw captured substring `"12.5"`, not a numeric value — no float coercion is
applied on this path, contrary to the claim. -/
theorem C4_counterexample :
    emit (mkHandlerState 10 [] [] [] []) 5 "The best score is updated 10.0 -> 12.5" =
      .ok (mkHandlerState 10 [] [] [] [],
        [⟨"evaluation_new_best_score", MVal.str "12.5", 5⟩]) ∧
    MVal.isNum (MVal.str "12.5") = false := by
  constructor
  · unfold emit
    rw [show searchNewBest "The best score is updated 10.0 -> 12.5" =
        some ("10.0", "12.5") from by decide]
    rw [show searchEpisode "The best score is updated 10.0 -> 12.5" = none
        from by decide]
  · rfl

/-- C4 amended: the new-best regex extracts `"12.5"` from the input, and for
every handler state and training step `t` the handler immediately emits
exactly one scalar named `evaluation_new_best_score` at step `t` whose value
is the raw extracted substring (no float conversion is applied to it). -/
theorem C4_new_best_emits_raw_capture (st : HandlerState) (t : Nat) :
    searchNewBest "The best score is updated 10.0 -> 12.5" = some ("10.0", "12.5") ∧
    logEventParse "The best score is updated 10.0 -> 12.5" = .ok (.newBest "12.5") ∧
    emit st t "The best score is updated 10.0 -> 12.5" =
      .ok (st, [⟨"evaluation_new_best_score", MVal.str "12.5", t⟩]) := by
  refine ⟨by decide, ?_, ?_⟩
  · unfold logEventParse
    rw [show searchNewBest "The best score is updated 10.0 -> 12.5" =
        some ("10.0", "12.5") from by decide]
  · unfold emit
    rw [show searchNewBest "The best score is updated 10.0 -> 12.5" =
        some ("10.0", "12.5") from by decide]
    rw [show searchEpisode "The best score is updated 10.0 -> 12.5" = none
        from by decide]

/-! ## Behaviour of `emit` on in-range episode lines -/

/-- Numpy assignment at a non-negative in-range index stores the value. -/
theorem npSet_inRange (l : List ℚ) (i : Int) (v : ℚ)
    (h0 : 0 ≤ i) (h1 : i < (l.length : Int)) :
    npSet l i v = some (l.set i.toNat v) := by
  unfold npSet
  rw [if_pos ⟨h0, h1⟩]

/-- Unpacks a successful full parse of the episode pattern into the five
captures and their parsed values. -/
theorem episodeParse_elim (msg : String) (i : Int)
    (h : (episodeParse msg).map (fun x => x.1) = some i) :
    ∃ g1 g2 g3 g4 g5 el er eiou emiou,
      searchEpisode msg = some (g1, g2, g3, g4, g5) ∧
      pyIntParse g1 = some i ∧ pyIntParse g2 = some el ∧
      pyFloatParse g3 = some er ∧ pyFloatParse g4 = some eiou ∧
      pyFloatParse g5 = some emiou := by
  unfold episodeParse at h
  cases hse : searchEpisode msg with
  | none => rw [hse] at h; simp at h
  | some g =>
    obtain ⟨g1, g2, g3, g4, g5⟩ := g
    rw [hse] at h
    simp only [] at h
    cases hp1 : pyIntParse g1 with
    | none => rw [hp1] at h; simp at h
    | some en =>
      rw [hp1] at h
      cases hp2 : pyIntParse g2 with
      | none => rw [hp2] at h; simp at h
      | some el =>
        rw [hp2] at h
        cases hp3 : pyFloatParse g3 with
        | none => rw [hp3] at h; simp at h
        | some er =>
          rw [hp3] at h
          cases hp4 : pyFloatParse g4 with
          | none => rw [hp4] at h; simp at h
          | some eiou =>
            rw [hp4] at h
            cases hp5 : pyFloatParse g5 with
            | none => rw [hp5] at h; simp at h
            | some emiou =>
              rw [hp5] at h
              simp only [Option.map_some] at h
              obtain rfl : en = i := by simpa using h
              exact ⟨g1, g2, g3, g4, g5, el, er, eiou, emiou, rfl,
                hp1, hp2, hp3, hp4, hp5⟩

/-- On an in-range episode line, `emit` stores the parsed values, raises no
exception, keeps the buffers at their fixed size, and emits the 7-scalar
aggregate burst exactly when the parsed index is `eval_run_count - 1`
(no scalar at all otherwise). -/
theorem emit_good (st : HandlerState) (t : Nat) (msg : String) (i : Int)
    (hb : buffersSized st)
    (hg : goodEpisodeMsg st.eval_run_count msg i) :
    ∃ st1 : HandlerState,
      emit st t msg = .ok (st1,
        if i = (st.eval_run_count : Int) - 1 then burstEvents st1 t else []) ∧
      buffersSized st1 ∧ st1.eval_run_count = st.eval_run_count := by
  obtain ⟨hnb, hparse, h0, hK⟩ := hg
  obtain ⟨g1, g2, g3, g4, g5, el, er, eiou, emiou, hse, hp1, hp2, hp3, hp4, hp5⟩ :=
    episodeParse_elim msg i hparse
  obtain ⟨hb1, hb2, hb3, hb4⟩ := hb
  have hs1 := npSet_inRange st.episode_lengths i (el : ℚ) h0 (by rw [hb1]; exact hK)
  have hs2 := npSet_inRange st.episode_rewards i er h0 (by rw [hb2]; exact hK)
  have hs3 := npSet_inRange st.episode_ious i eiou h0 (by rw [hb3]; exact hK)
  have hs4 := npSet_inRange st.episode_max_ious i emiou h0 (by rw [hb4]; exact hK)
  refine ⟨{ st with
      episode_lengths := st.episode_lengths.set i.toNat (el : ℚ),
      episode_rewards := st.episode_rewards.set i.toNat er,
      episode_ious := st.episode_ious.set i.toNat eiou,
      episode_max_ious := st.episode_max_ious.set i.toNat emiou }, ?_, ?_, rfl⟩
  · unfold emit
    rw [hnb, hse]
    simp only []
    rw [hp1, hp2, hp3, hp4, hp5]
    simp only []
    rw [hs1, hs2, hs3, hs4]
    simp only []
    split
    · rfl
    · rfl
  · exact ⟨by simpa using hb1, by simpa using hb2, by simpa using hb3,
      by simpa using hb4⟩

/-- Every scalar in an aggregate burst carries the step it was flushed at. -/
theorem burstEvents_step (st : HandlerState) (t : Nat) :
    ∀ ev ∈ burstEvents st t, ev.step = t := by
  intro ev hev
  simp only [burstEvents, List.mem_cons, List.not_mem_nil, or_false] at hev
  rcases hev with rfl | rfl | rfl | rfl | rfl | rfl | rfl <;> rfl

/-- C9: when the round-completing episode line (index `eval_run_count - 1`)
is processed, `emit` flushes the 7-scalar aggregate burst and every one of
those scalars carries the same step, namely the agent's training step count
`t` read during that very `emit` call. -/
theorem C9_burst_scalars_share_flush_step (st : HandlerState) (t : Nat)
    (msg : String) (hb : buffersSized st)
    (hg : goodEpisodeMsg st.eval_run_count msg ((st.eval_run_count : Int) - 1)) :
    ∃ st1 : HandlerState,
      emit st t msg = .ok (st1, burstEvents st1 t) ∧
      (burstEvents st1 t).length = 7 ∧
      ∀ ev ∈ burstEvents st1 t, ev.step = t := by
  obtain ⟨st1, hok, _, _⟩ := emit_good st t msg ((st.eval_run_count : Int) - 1) hb hg
  rw [if_pos rfl] at hok
  exact ⟨st1, hok, rfl, burstEvents_step st1 t⟩

/-- Whether all four buffers have their constructor-given length is
decidable, so concrete handler states can be checked by evaluation. -/
instance (st : HandlerState) : Decidable (buffersSized st) := by
  unfold buffersSized
  infer_instance

/-- Witness for C9 at a concrete one-episode round. -/
theorem C9_witness :
    ∃ st1 : HandlerState,
      emit (mkHandlerState 1 [0] [0] [0] [0]) 42
          "evaluation episode 0 length:1 R:0 IoU:0.0 Max_IoU:0.0" =
        .ok (st1, burstEvents st1 42) ∧
      (burstEvents st1 42).length = 7 ∧
      ∀ ev ∈ burstEvents st1 42, ev.step = 42 :=
  C9_burst_scalars_share_flush_step (mkHandlerState 1 [0] [0] [0] [0]) 42
    "evaluation episode 0 length:1 R:0 IoU:0.0 Max_IoU:0.0"
    (by decide) (by decide)

/-! ## One full evaluation round through the handler (C1) -/
/-! ## One full evaluation round through the handler (C1) -/

/-- A run of in-range episode lines none of which has the round-completing
index flushes nothing: no scalar is emitted and the buffers keep their size. -/
theorem processRound_no_flush (K : Nat) (msgs : List (Nat × String)) :
    ∀ (idxs : List Int) (st : HandlerState), st.eval_run_count = K →
    buffersSized st →
    List.Forall₂ (fun (p : Nat × String) (i : Int) =>
      goodEpisodeMsg K p.2 i ∧ i ≠ (K : Int) - 1) msgs idxs →
    ∃ st2, processRound st msgs = .ok (st2, []) ∧ buffersSized st2 ∧
      st2.eval_run_count = K := by
  induction msgs with
  | nil =>
    intro idxs st hK hb _
    exact ⟨st, rfl, hb, hK⟩
  | cons p rest ih =>
    intro idxs st hK hb hf
    cases hf with
    | cons hpi hrest =>
      obtain ⟨hg, hne⟩ := hpi
      rw [← hK] at hg
      obtain ⟨st1, hok, hb1, hk1⟩ := emit_good st p.1 p.2 _ hb hg
      rw [hK] at hok
      rw [if_neg hne] at hok
      obtain ⟨st2, hok2, hb2, hk2⟩ := ih _ st1 (hk1.trans hK) hb1 hrest
      refine ⟨st2, ?_, hb2, hk2⟩
      simp only [processRound]
      rw [hok]
      simp only []
      rw [hok2]
      rfl

/-- Processing a concatenation of message runs concatenates the emitted
scalars, threading the handler state. -/
theorem processRound_append (l2 l1 : List (Nat × String)) :
    ∀ (s s1 : HandlerState) (evs1 : List MetricEvent),
    processRound s l1 = Except.ok (s1, evs1) →
    processRound s (l1 ++ l2) =
      (match processRound s1 l2 with
       | Except.error e => Except.error e
       | Except.ok q => Except.ok (q.1, evs1 ++ q.2)) := by
  induction l1 with
  | nil =>
    intro s s1 evs1 h1
    cases h1
    simp only [List.nil_append]
    cases h2 : processRound s l2 with
    | error e => rfl
    | ok q => simp
  | cons p rest ih =>
    intro s s1 evs1 h1
    rw [List.cons_append]
    simp only [processRound] at h1 ⊢
    cases he : emit s p.1 p.2 with
    | error e =>
      rw [he] at h1
      simp at h1
    | ok r =>
      obtain ⟨ru, rv⟩ := r
      rw [he] at h1
      simp only [] at h1 ⊢
      cases hr : processRound ru rest with
      | error e =>
        rw [hr] at h1
        simp at h1
      | ok q =>
        obtain ⟨qu, qv⟩ := q
        rw [hr] at h1
        simp only [] at h1
        have hq : (qu, rv ++ qv) = (s1, evs1) := Except.ok.inj h1
        have hq1 : qu = s1 := congrArg Prod.fst hq
        have hq2 : rv ++ qv = evs1 := congrArg Prod.snd hq
        rw [ih ru qu qv hr, hq1]
        cases h2 : processRound s1 l2 with
        | error e => rfl
        | ok q2 =>
          simp only []
          rw [← hq2, List.append_assoc]

/-- C1 amended: with `K` the handler's own `eval_run_count`, a round of
in-range episode lines whose indices before the last differ from `K - 1`,
closed by a line with index `K - 1`, emits exactly one aggregate burst of 7
scalars — flushed when the closing line is processed, at that call's
training step, whatever the order of the earlier indices — and the four
fixed-size buffers keep length `K` throughout. -/
theorem C1_round_flushes_once_at_last_index (K : Nat) (st : HandlerState)
    (front : List (Nat × String)) (idxs : List Int) (tL : Nat) (lastMsg : String)
    (hK : st.eval_run_count = K) (hb : buffersSized st)
    (hf : List.Forall₂ (fun (p : Nat × String) (i : Int) =>
      goodEpisodeMsg K p.2 i ∧ i ≠ (K : Int) - 1) front idxs)
    (hl : goodEpisodeMsg K lastMsg ((K : Int) - 1)) :
    ∃ st2, processRound st (front ++ [(tL, lastMsg)]) =
        .ok (st2, burstEvents st2 tL) ∧
      (burstEvents st2 tL).length = 7 ∧ buffersSized st2 ∧
      st2.eval_run_count = K ∧
      ∀ ev ∈ burstEvents st2 tL, ev.step = tL := by
  obtain ⟨st1, hok1, hb1, hk1⟩ := processRound_no_flush K front idxs st hK hb hf
  rw [← hk1] at hl
  obtain ⟨st2, hok2, hb2, hk2⟩ := emit_good st1 tL lastMsg _ hb1 hl
  rw [if_pos rfl] at hok2
  refine ⟨st2, ?_, rfl, hb2, hk2.trans hk1, burstEvents_step st2 tL⟩
  rw [processRound_append [(tL, lastMsg)] front st st1 [] hok1]
  have hsingle : processRound st1 [(tL, lastMsg)] =
      .ok (st2, burstEvents st2 tL) := by
    simp only [processRound]
    rw [hok2]
    simp
  rw [hsingle]
  simp

/-- Witness for the amended C1 at a concrete two-episode round. -/
theorem C1_witness :
    ∃ st2, processRound (mkHandlerState 2 [0, 0] [0, 0] [0, 0] [0, 0])
        ([(3, "evaluation episode 0 length:1 R:0 IoU:0.0 Max_IoU:0.0")] ++
          [(7, "evaluation episode 1 length:2 R:1 IoU:0.5 Max_IoU:0.5")]) =
        .ok (st2, burstEvents st2 7) ∧
      (burstEvents st2 7).length = 7 ∧ buffersSized st2 ∧
      st2.eval_run_count = 2 ∧
      ∀ ev ∈ burstEvents st2 7, ev.step = 7 :=
  C1_round_flushes_once_at_last_index 2
    (mkHandlerState 2 [0, 0] [0, 0] [0, 0] [0, 0])
    [(3, "evaluation episode 0 length:1 R:0 IoU:0.0 Max_IoU:0.0")] [0] 7
    "evaluation episode 1 length:2 R:1 IoU:0.5 Max_IoU:0.5" rfl (by decide)
    (List.Forall₂.cons ⟨by decide, by decide⟩ List.Forall₂.nil) (by decide)

/-- C1 counterexample: `main` constructs the handler with the hardcoded
`eval_run_count = 10`, not with the configured `eval_n_episodes`.  For an
evaluation round of `n_episodes = 5` (episode lines with indices 0..4), the
claim asserts storage of size 5 and one 7-scalar burst triggered at index 4;
the handler as built in `main` instead has buffers of length 10 and emits no
scalar at all while processing the whole round. -/
theorem C1_counterexample :
    (mkHandlerState eval_run_count (List.replicate eval_run_count 0)
        (List.replicate eval_run_count 0) (List.replicate eval_run_count 0)
        (List.replicate eval_run_count 0)).episode_rewards.length ≠ 5 ∧
    (processRound
        (mkHandlerState eval_run_count (List.replicate eval_run_count 0)
          (List.replicate eval_run_count 0) (List.replicate eval_run_count 0)
          (List.replicate eval_run_count 0))
        [(3, "evaluation episode 0 length:1 R:0 IoU:0.0 Max_IoU:0.0"),
         (3, "evaluation episode 1 length:1 R:0 IoU:0.0 Max_IoU:0.0"),
         (3, "evaluation episode 2 length:1 R:0 IoU:0.0 Max_IoU:0.0"),
         (3, "evaluation episode 3 length:1 R:0 IoU:0.0 Max_IoU:0.0"),
         (3, "evaluation episode 4 length:1 R:0 IoU:0.0 Max_IoU:0.0")]).toOption.map
      (fun p => p.2.length) = some 0 :=
  ⟨by decide, by decide⟩

/-! ## Shape and termination of the evaluation loop (C3, C6, C7, C8, C10) -/

/-- A loop exit carries no `stop_episode` call and no log line in its trace,
its final counter is the initial one plus one per `env.step` call, and an
exit without `done` can only happen because the counter hit
`max_episode_len`. -/
theorem evalLoop_shape {E A Obs Act : Type} (w : World E A Obs Act)
    (maxLen : Option Nat) :
    ∀ (fuel : Nat) (e : E) (a : A) (obs : Obs) (done : Bool) (r : PyNum)
      (t : Nat) (lr : LoopResult E A),
      evalLoop w maxLen fuel e a obs done r t = some lr →
      countStop lr.trace = 0 ∧ logRecords lr.trace = [] ∧
      lr.tFinal = t + countStep lr.trace ∧
      (lr.done = false → maxLen = some lr.tFinal) := by
  intro fuel
  induction fuel with
  | zero =>
    intro e a obs done r t lr h
    simp only [evalLoop] at h
    split at h
    · cases h
      refine ⟨rfl, rfl, by simp [countStep, countStop], ?_⟩
      intro hd
      rename_i hcond
      rcases hcond with h1 | h2
      · exact absurd hd (by simp [h1])
      · exact h2
    · cases h
  | succ fuel1 ih =>
    intro e a obs done r t lr h
    simp only [evalLoop] at h
    split at h
    · cases h
      refine ⟨rfl, rfl, by simp [countStep, countStop], ?_⟩
      intro hd
      rename_i hcond
      rcases hcond with h1 | h2
      · exact absurd hd (by simp [h1])
      · exact h2
    · split at h
      · cases h
      · rename_i lr2 heq
        cases h
        obtain ⟨i1, i2, i3, i4⟩ := ih _ _ _ _ _ _ lr2 heq
        refine ⟨?_, ?_, ?_, i4⟩
        · simpa [countStop, List.countP_cons, isStopEv] using i1
        · simpa [logRecords, List.filterMap_cons] using i2
        · simp [countStep, List.countP_cons, isStepEv] at i3 ⊢
          omega

/-- With an integer `max_episode_len = m` and counter at `t ≤ m`, `m - t`
units of fuel always reach the loop exit: the loop performs at most `m`
iterations in total. -/
theorem evalLoop_total {E A Obs Act : Type} (w : World E A Obs Act) (m : Nat) :
    ∀ (fuel : Nat) (e : E) (a : A) (obs : Obs) (done : Bool) (r : PyNum)
      (t : Nat), t ≤ m → m - t ≤ fuel →
      ∃ lr, evalLoop w (some m) fuel e a obs done r t = some lr := by
  intro fuel
  induction fuel with
  | zero =>
    intro e a obs done r t ht hf
    have htm : t = m := by omega
    simp only [evalLoop]
    rw [if_pos (Or.inr (by rw [htm]))]
    exact ⟨_, rfl⟩
  | succ fuel1 ih =>
    intro e a obs done r t ht hf
    simp only [evalLoop]
    by_cases hc : done = true ∨ (some m : Option Nat) = some t
    · rw [if_pos hc]
      exact ⟨_, rfl⟩
    · rw [if_neg hc]
      have htm : t ≠ m := fun hh => hc (Or.inr (by rw [hh]))
      obtain ⟨lr, hlr⟩ := ih (w.step e (w.act a obs).2).1 (w.act a obs).1
        (w.step e (w.act a obs).2).2.1 (w.step e (w.act a obs).2).2.2.2
        (pyAdd r (w.step e (w.act a obs).2).2.2.1) (t + 1) (by omega) (by omega)
      rw [hlr]
      exact ⟨_, rfl⟩

/-- Shape of one completed evaluation episode: exactly one `stop_episode`
call, placed after the whole loop trace and before the single episode log
line; the log line carries the episode index; the appended score is
`float(test_r)` (a plain float), the logged iou and max_iou are plain floats;
a cap exit reports iou exactly `0.0` with the counter equal to the cap, and a
terminal exit reports the environment's final `iou`; in both cases the
logged max_iou is the environment's final `max_iou`. -/
theorem runEpisode_shape {E A Obs Act : Type} (w : World E A Obs Act)
    (maxLen : Option Nat) (fuel : Nat) (e : E) (a : A) (i : Nat)
    (out : EpisodeOutcome E A) (h : runEpisode w maxLen fuel e a i = some out) :
    countStop out.trace = 1 ∧
    (∃ pre, out.trace = pre ++
        [TraceEv.callStopEpisode, TraceEv.logEpisode out.logRec] ∧
      countStop pre = 0) ∧
    logRecords out.trace = [out.logRec] ∧
    out.logRec.idx = i ∧
    out.score = pyfloat out.logRec.rVal ∧
    out.score.isPlainFloat = true ∧
    out.logRec.iouVal.isPlainFloat = true ∧
    out.logRec.maxIouVal.isPlainFloat = true ∧
    (out.done = false →
      out.logRec.iouVal = PyNum.float 0 ∧ maxLen = some out.logRec.len) ∧
    (out.done = true → out.logRec.iouVal = pyfloat (w.iou out.env)) ∧
    out.logRec.maxIouVal = pyfloat (w.max_iou out.env) := by
  simp only [runEpisode] at h
  split at h
  · cases h
  · rename_i lr heq
    cases h
    obtain ⟨s1, s2, _, s4⟩ := evalLoop_shape w maxLen fuel _ _ _ _ _ _ lr heq
    refine ⟨?_, ⟨lr.trace, rfl, s1⟩, ?_, rfl, rfl, rfl, ?_, rfl, ?_, ?_, rfl⟩
    · simp [countStop, List.countP_append, List.countP_cons, isStopEv]
      simpa [countStop] using s1
    · simp [logRecords, List.filterMap_append, List.filterMap_cons]
      simpa [logRecords] using s2
    · cases hdone : lr.done <;> simp [pyfloat, PyNum.isPlainFloat]
    · intro hd
      simp only [] at hd ⊢
      rw [hd]
      refine ⟨by simp [pyfloat, PyNum.toRat], ?_⟩
      simpa using s4 hd
    · intro hd
      simp only [] at hd ⊢
      rw [hd]
      simp

/-- With `max_episode_len = m`, fuel `m` always completes an episode. -/
theorem runEpisode_total {E A Obs Act : Type} (w : World E A Obs Act)
    (m fuel : Nat) (hmf : m ≤ fuel) (e : E) (a : A) (i : Nat) :
    ∃ out, runEpisode w (some m) fuel e a i = some out := by
  simp only [runEpisode]
  obtain ⟨lr, hlr⟩ := evalLoop_total w m fuel (w.reset e).1 a (w.reset e).2
    false (.int 0) 0 (Nat.zero_le m) (by omega)
  rw [hlr]
  exact ⟨_, rfl⟩

/-- Shape of a completed evaluation run of `rem` episodes starting at index
`i`: one score per episode, one `stop_episode` call per episode, one log
line per episode carrying the indices `i, i+1, ...` in order; every score in
the returned list is a plain float, and every logged iou/max_iou is a plain
float. -/
theorem runEvalAux_shape {E A Obs Act : Type} (w : World E A Obs Act)
    (maxLen : Option Nat) (fuel : Nat) :
    ∀ (rem i : Nat) (e : E) (a : A) (rr : RunResult E A),
      runEvalAux w maxLen fuel rem i e a = some rr →
      rr.scores.length = rem ∧
      countStop rr.trace = rem ∧
      (logRecords rr.trace).map LogRecord.idx = List.range' i rem ∧
      (∀ s ∈ rr.scores, s.isPlainFloat = true) ∧
      (∀ lrec ∈ logRecords rr.trace,
        lrec.iouVal.isPlainFloat = true ∧ lrec.maxIouVal.isPlainFloat = true) := by
  intro rem
  induction rem with
  | zero =>
    intro i e a rr h
    cases h
    refine ⟨rfl, by simp [countStop], by simp [logRecords, List.range'],
      by simp, by simp [logRecords]⟩
  | succ rem1 ih =>
    intro i e a rr h
    simp only [runEvalAux] at h
    split at h
    · cases h
    · rename_i out hout
      split at h
      · cases h
      · rename_i rr1 hrr1
        cases h
        obtain ⟨e1, _, e3, e4, _, e6, e7, e8, _, _, _⟩ :=
          runEpisode_shape w maxLen fuel e a i out hout
        obtain ⟨j1, j2, j3, j4, j5⟩ := ih (i + 1) out.env out.agent rr1 hrr1
        refine ⟨by simp [j1], ?_, ?_, ?_, ?_⟩
        · simp only [countStop, List.countP_append] at e1 j2 ⊢
          omega
        · simp only [logRecords, List.filterMap_append, List.map_append]
          simp only [logRecords] at e3 j3
          rw [e3, j3]
          simp [e4, List.range']
        · intro s hs
          rcases List.mem_cons.mp hs with rfl | hs2
          · exact e6
          · exact j4 s hs2
        · intro lrec hl
          simp only [logRecords, List.filterMap_append] at hl
          simp only [logRecords] at e3 j5
          rw [e3] at hl
          rcases List.mem_append.mp hl with hl1 | hl2
          · rcases List.mem_singleton.mp hl1 with rfl
            exact ⟨e7, e8⟩
          · exact j5 lrec hl2

/-- With `max_episode_len = m`, fuel `m` always completes the whole run. -/
theorem runEvalAux_total {E A Obs Act : Type} (w : World E A Obs Act)
    (m fuel : Nat) (hmf : m ≤ fuel) :
    ∀ (rem i : Nat) (e : E) (a : A),
      ∃ rr, runEvalAux w (some m) fuel rem i e a = some rr := by
  intro rem
  induction rem with
  | zero =>
    intro i e a
    exact ⟨_, rfl⟩
  | succ rem1 ih =>
    intro i e a
    simp only [runEvalAux]
    obtain ⟨out, hout⟩ := runEpisode_total w m fuel hmf e a i
    rw [hout]
    simp only []
    obtain ⟨rr1, hrr1⟩ := ih (i + 1) out.env out.agent
    rw [hrr1]
    exact ⟨_, rfl⟩

/-! ## Concrete worlds used to instantiate the runner claims -/

/-- Stub environment/agent pair whose `step` always terminates after one
step with the fixed plain-float reward `R`. -/
def stubWorld (R : ℚ) : World Unit Unit Unit Unit where
  reset := fun _ => ((), ())
  step := fun _ _ => ((), (), .float R, true)
  act := fun _ _ => ((), ())
  stop_episode := fun _ => ()
  iou := fun _ => .float 0
  max_iou := fun _ => .float 0

/-- Environment/agent pair whose `step` terminates at once but pays the
reward as a numpy-boxed float, as a numpy-backed environment does. -/
def npWorld : World Unit Unit Unit Unit where
  reset := fun _ => ((), ())
  step := fun _ _ => ((), (), .npfloat 1, true)
  act := fun _ _ => ((), ())
  stop_episode := fun _ => ()
  iou := fun _ => .npfloat 1
  max_iou := fun _ => .npfloat 1

/-- Environment/agent pair whose `step` never reports `done`. -/
def neverDoneWorld : World Unit Unit Unit Unit where
  reset := fun _ => ((), ())
  step := fun _ _ => ((), (), .int 0, false)
  act := fun _ _ => ((), ())
  stop_episode := fun _ => ()
  iou := fun _ => .int 9
  max_iou := fun _ => .int 0

/-- Environment/agent pair with integer-zero rewards, terminating at once
(fully evaluable, used for witnesses). -/
def intWorld : World Unit Unit Unit Unit where
  reset := fun _ => ((), ())
  step := fun _ _ => ((), (), .int 0, true)
  act := fun _ _ => ((), ())
  stop_episode := fun _ => ()
  iou := fun _ => .int 0
  max_iou := fun _ => .int 0

/-! ## C3: iou reporting at cap versus terminal exit -/

/-- C3: in a completed evaluation episode, if the loop ended without `done`
(only possible because the counter reached `max_episode_len`), the reported
iou is exactly `0.0`; if it ended with `done`, the reported iou is the
environment's final `iou` field (cast to float); in both cases the reported
max_iou is the environment's final `max_iou` field (cast to float). -/
theorem C3_cap_zero_iou_terminal_env_iou {E A Obs Act : Type}
    (w : World E A Obs Act) (maxLen : Option Nat) (fuel : Nat) (e : E) (a : A)
    (i : Nat) (out : EpisodeOutcome E A)
    (h : runEpisode w maxLen fuel e a i = some out) :
    (out.done = false →
      out.logRec.iouVal = PyNum.float 0 ∧ maxLen = some out.logRec.len) ∧
    (out.done = true → out.logRec.iouVal = pyfloat (w.iou out.env)) ∧
    out.logRec.maxIouVal = pyfloat (w.max_iou out.env) := by
  obtain ⟨_, _, _, _, _, _, _, _, h9, h10, h11⟩ :=
    runEpisode_shape w maxLen fuel e a i out h
  exact ⟨h9, h10, h11⟩

/-- The outcome of one `neverDoneWorld` episode capped at length 1. -/
def capOut : EpisodeOutcome Unit Unit :=
  ⟨(), (), PyNum.float 0, false,
    ⟨0, 1, PyNum.int 0, PyNum.float 0, PyNum.float 0⟩,
    [TraceEv.callAct, TraceEv.callStep, TraceEv.callStopEpisode,
     TraceEv.logEpisode ⟨0, 1, PyNum.int 0, PyNum.float 0, PyNum.float 0⟩]⟩

/-- Witness for C3 at a concrete capped episode. -/
theorem C3_witness :
    (capOut.done = false →
      capOut.logRec.iouVal = PyNum.float 0 ∧
        (some 1 : Option Nat) = some capOut.logRec.len) ∧
    (capOut.done = true →
      capOut.logRec.iouVal = pyfloat (neverDoneWorld.iou capOut.env)) ∧
    capOut.logRec.maxIouVal = pyfloat (neverDoneWorld.max_iou capOut.env) :=
  C3_cap_zero_iou_terminal_env_iou neverDoneWorld (some 1) 1 () () 0 capOut
    (by decide)

/-! ## C8: one stop_episode call per episode -/

/-- C8: every completed evaluation episode performs exactly one
`stop_episode` call, placed after the whole step loop (the prefix before it
contains none), whatever the termination reason; a completed run of
`n_episodes` episodes performs exactly `n_episodes` such calls. -/
theorem C8_stop_episode_called_once_per_episode :
    (∀ {E A Obs Act : Type} (w : World E A Obs Act) (maxLen : Option Nat)
      (fuel : Nat) (e : E) (a : A) (i : Nat) (out : EpisodeOutcome E A),
      runEpisode w maxLen fuel e a i = some out →
      countStop out.trace = 1 ∧
      ∃ pre, out.trace = pre ++
          [TraceEv.callStopEpisode, TraceEv.logEpisode out.logRec] ∧
        countStop pre = 0) ∧
    (∀ {E A Obs Act : Type} (w : World E A Obs Act) (ns : Option Nat)
      (n : Nat) (maxLen : Option Nat) (fuel : Nat) (e : E) (a : A)
      (rr : RunResult E A),
      run_localization_evaluation_episodes w ns n maxLen fuel e a = some rr →
      countStop rr.trace = n) := by
  constructor
  · intro E A Obs Act w maxLen fuel e a i out h
    obtain ⟨h1, h2, _⟩ := runEpisode_shape w maxLen fuel e a i out h
    exact ⟨h1, h2⟩
  · intro E A Obs Act w ns n maxLen fuel e a rr h
    obtain ⟨_, h2, _⟩ := runEvalAux_shape w maxLen fuel n 0 e a rr h
    exact h2

/-- The result of a 2-episode `intWorld` evaluation run. -/
def intRun2 : RunResult Unit Unit :=
  ⟨(), (), [PyNum.float 0, PyNum.float 0],
    [TraceEv.callAct, TraceEv.callStep, TraceEv.callStopEpisode,
     TraceEv.logEpisode ⟨0, 1, PyNum.int 0, PyNum.float 0, PyNum.float 0⟩,
     TraceEv.callAct, TraceEv.callStep, TraceEv.callStopEpisode,
     TraceEv.logEpisode ⟨1, 1, PyNum.int 0, PyNum.float 0, PyNum.float 0⟩]⟩

/-- Witness for C8 at a concrete 2-episode run. -/
theorem C8_witness : countStop intRun2.trace = 2 :=
  C8_stop_episode_called_once_per_episode.2 intWorld none 2 none 1 () () intRun2
    (by decide)

/-! ## C7: plain-float conversion of reported values -/

/-- C7 counterexample: with a numpy-reward environment, the accumulated
return is formatted into the episode log line as-is — a numpy-boxed float,
not a plain float — because `logger.info` receives `test_r`, not
`float(test_r)`.  (Only the copy appended to `scores` is converted.) -/
theorem C7_counterexample :
    (runEpisode npWorld none 1 () () 0).map
        (fun out => out.logRec.rVal.isPlainFloat) = some false ∧
    (runEpisode npWorld none 1 () () 0).map (fun out => out.logRec.rVal) =
      some (PyNum.npfloat 1) ∧
    (runEpisode npWorld none 1 () () 0).map
        (fun out => out.score.isPlainFloat) = some true := by
  refine ⟨by decide, ?_, by decide⟩
  have h : (runEpisode npWorld none 1 () () 0).map (fun out => out.logRec.rVal) =
      some (PyNum.npfloat (((0 : Int) : ℚ) + 1)) := rfl
  rw [h]
  simp

/-- C7 amended: in every completed evaluation run, each score appended to
the returned list is a plain float (`float(test_r)`), and the iou and
max_iou formatted into each episode log line are plain floats; the
accumulated return in the log line itself is not converted. -/
theorem C7_scores_iou_maxiou_plain_floats {E A Obs Act : Type}
    (w : World E A Obs Act) (ns : Option Nat) (n : Nat) (maxLen : Option Nat)
    (fuel : Nat) (e : E) (a : A) (rr : RunResult E A)
    (h : run_localization_evaluation_episodes w ns n maxLen fuel e a = some rr) :
    (∀ s ∈ rr.scores, s.isPlainFloat = true) ∧
    (∀ lrec ∈ logRecords rr.trace,
      lrec.iouVal.isPlainFloat = true ∧ lrec.maxIouVal.isPlainFloat = true) := by
  obtain ⟨_, _, _, h4, h5⟩ := runEvalAux_shape w maxLen fuel n 0 e a rr h
  exact ⟨h4, h5⟩

/-- The result of a 1-episode `intWorld` evaluation run. -/
def intRun1 : RunResult Unit Unit :=
  ⟨(), (), [PyNum.float 0],
    [TraceEv.callAct, TraceEv.callStep, TraceEv.callStopEpisode,
     TraceEv.logEpisode ⟨0, 1, PyNum.int 0, PyNum.float 0, PyNum.float 0⟩]⟩

/-- Witness for the amended C7 at a concrete 1-episode run. -/
theorem C7_witness :
    (∀ s ∈ intRun1.scores, s.isPlainFloat = true) ∧
    (∀ lrec ∈ logRecords intRun1.trace,
      lrec.iouVal.isPlainFloat = true ∧ lrec.maxIouVal.isPlainFloat = true) :=
  C7_scores_iou_maxiou_plain_floats intWorld none 1 none 1 () () intRun1
    (by decide)

/-! ## C10: termination of the episode loop -/

/-- C10: with an integer `max_episode_len = m`, a whole evaluation run
completes within `m` loop iterations per episode (fuel `m` suffices for any
environment and any `n_episodes`); the loop counter grows by exactly one per
`env.step` call and the loop exits without `done` only at the cap; with
`max_episode_len = None` and an environment that never reports `done`, the
loop is still running after any number of iterations. -/
theorem C10_loop_bounded_by_cap_and_may_diverge (m : Nat) :
    (∀ {E A Obs Act : Type} (w : World E A Obs Act) (ns : Option Nat)
      (n : Nat) (e : E) (a : A),
      ∃ rr, run_localization_evaluation_episodes w ns n (some m) m e a = some rr) ∧
    (∀ {E A Obs Act : Type} (w : World E A Obs Act) (maxLen : Option Nat)
      (fuel : Nat) (e : E) (a : A) (obs : Obs) (done : Bool) (r : PyNum)
      (t : Nat) (lr : LoopResult E A),
      evalLoop w maxLen fuel e a obs done r t = some lr →
      lr.tFinal = t + countStep lr.trace ∧
      (lr.done = false → maxLen = some lr.tFinal)) ∧
    (∀ (fuel : Nat) (r : PyNum) (t : Nat),
      evalLoop neverDoneWorld none fuel () () () false r t = none) := by
  refine ⟨?_, ?_, ?_⟩
  · intro E A Obs Act w ns n e a
    exact runEvalAux_total w m m le_rfl n 0 e a
  · intro E A Obs Act w maxLen fuel e a obs done r t lr h
    obtain ⟨_, _, h3, h4⟩ := evalLoop_shape w maxLen fuel e a obs done r t lr h
    exact ⟨h3, h4⟩
  · intro fuel
    induction fuel with
    | zero =>
      intro r t
      simp only [evalLoop]
      rw [if_neg (by simp)]
    | succ fuel1 ih =>
      intro r t
      simp only [evalLoop]
      rw [if_neg (by simp)]
      have hrec : evalLoop neverDoneWorld none fuel1
          (neverDoneWorld.step () (neverDoneWorld.act () ()).2).1
          (neverDoneWorld.act () ()).1
          (neverDoneWorld.step () (neverDoneWorld.act () ()).2).2.1
          (neverDoneWorld.step () (neverDoneWorld.act () ()).2).2.2.2
          (pyAdd r (neverDoneWorld.step () (neverDoneWorld.act () ()).2).2.2.1)
          (t + 1) = none :=
        ih (pyAdd r (neverDoneWorld.step () (neverDoneWorld.act () ()).2).2.2.1)
          (t + 1)
      rw [hrec]

/-- The exit state of a 1-iteration `intWorld` loop run. -/
def lrExpC10 : LoopResult Unit Unit :=
  ⟨(), (), PyNum.int 0, 1, true, [TraceEv.callAct, TraceEv.callStep]⟩

/-- Witness for C10's per-exit bookkeeping at a concrete loop run. -/
theorem C10_witness :
    lrExpC10.tFinal = 0 + countStep lrExpC10.trace ∧
    (lrExpC10.done = false → (some 1 : Option Nat) = some lrExpC10.tFinal) :=
  (C10_loop_bounded_by_cap_and_may_diverge 1).2.1 intWorld (some 1) 1 () () ()
    false (PyNum.int 0) 0 lrExpC10 (by decide)

/-! ## C6: stub run of five one-step episodes, and run sizing -/

/-- One `stubWorld R` episode: length 1, raw return `R`, score `float R`. -/
theorem stub_episode (R : ℚ) (i : Nat) :
    runEpisode (stubWorld R) none 1 () () i =
      some ⟨(), (), PyNum.float R, true,
        ⟨i, 1, PyNum.float R, PyNum.float 0, PyNum.float 0⟩,
        [TraceEv.callAct, TraceEv.callStep, TraceEv.callStopEpisode,
         TraceEv.logEpisode ⟨i, 1, PyNum.float R, PyNum.float 0, PyNum.float 0⟩]⟩ := by
  simp [runEpisode, evalLoop, stubWorld, pyAdd, pyfloat, PyNum.toRat]

/-- A `stubWorld R` run of `rem` episodes from index `i`: one record per
episode, each of length 1 with raw return `R`, and scores all `float R`. -/
theorem stub_runAux (R : ℚ) :
    ∀ (rem i : Nat), ∃ rr : RunResult Unit Unit,
      runEvalAux (stubWorld R) none 1 rem i () () = some rr ∧
      rr.scores = List.replicate rem (PyNum.float R) ∧
      ∀ lrec ∈ logRecords rr.trace, lrec.len = 1 ∧ lrec.rVal = PyNum.float R := by
  intro rem
  induction rem with
  | zero =>
    intro i
    exact ⟨⟨(), (), [], []⟩, rfl, rfl, by simp [logRecords]⟩
  | succ rem1 ih =>
    intro i
    obtain ⟨rr1, hrr1, hsc, hrec⟩ := ih (i + 1)
    refine ⟨⟨rr1.env, rr1.agent, PyNum.float R :: rr1.scores,
      [TraceEv.callAct, TraceEv.callStep, TraceEv.callStopEpisode,
       TraceEv.logEpisode ⟨i, 1, PyNum.float R, PyNum.float 0, PyNum.float 0⟩] ++
        rr1.trace⟩, ?_, ?_, ?_⟩
    · simp only [runEvalAux]
      rw [stub_episode R i]
      simp only []
      rw [hrr1]
    · simp [hsc, List.replicate]
    · intro lrec hl
      simp only [logRecords, List.filterMap_append, List.filterMap_cons,
        List.filterMap_nil] at hl
      rcases List.mem_append.mp hl with hl1 | hl2
      · rcases List.mem_singleton.mp hl1 with rfl
        exact ⟨rfl, rfl⟩
      · simp only [logRecords] at hrec
        exact hrec lrec hl2

/-- C6: running the evaluation over a stub environment/agent that always
terminates after one step with fixed reward `R` for `n_episodes = 5`
produces exactly 5 per-episode records with indices 0..4 in order, each of
length 1 and reward `R`, and 5 scores all equal to `float R`; in general a
completed run returns exactly `n_episodes` scores and logs exactly one
episode line per episode index `0..n_episodes-1`, in order. -/
theorem C6_stub_run_and_per_episode_records :
    (∀ R : ℚ, ∃ rr : RunResult Unit Unit,
      run_localization_evaluation_episodes (stubWorld R) none 5 none 1 () () =
        some rr ∧
      rr.scores = List.replicate 5 (PyNum.float R) ∧
      (logRecords rr.trace).map LogRecord.idx = [0, 1, 2, 3, 4] ∧
      ∀ lrec ∈ logRecords rr.trace, lrec.len = 1 ∧ lrec.rVal = PyNum.float R) ∧
    (∀ {E A Obs Act : Type} (w : World E A Obs Act) (ns : Option Nat)
      (n : Nat) (maxLen : Option Nat) (fuel : Nat) (e : E) (a : A)
      (rr : RunResult E A),
      run_localization_evaluation_episodes w ns n maxLen fuel e a = some rr →
      rr.scores.length = n ∧ (logRecords rr.trace).length = n ∧
      (logRecords rr.trace).map LogRecord.idx = List.range n) := by
  constructor
  · intro R
    obtain ⟨rr, hrr, hsc, hrec⟩ := stub_runAux R 5 0
    refine ⟨rr, hrr, hsc, ?_, hrec⟩
    obtain ⟨_, _, h3, _, _⟩ :=
      runEvalAux_shape (stubWorld R) none 1 5 0 () () rr hrr
    rw [h3]
    decide
  · intro E A Obs Act w ns n maxLen fuel e a rr h
    obtain ⟨h1, _, h3, _, _⟩ := runEvalAux_shape w maxLen fuel n 0 e a rr h
    refine ⟨h1, ?_, ?_⟩
    · have hlen := congrArg List.length h3
      simpa [List.length_map, List.length_range'] using hlen
    · rw [h3]
      exact (List.range_eq_range' n).symm

/-- Witness for C6's general sizing at a concrete 1-episode run. -/
theorem C6_witness :
    (⟨(), (), [PyNum.float 0],
      [TraceEv.callAct, TraceEv.callStep, TraceEv.callStopEpisode,
       TraceEv.logEpisode ⟨0, 1, PyNum.int 0, PyNum.float 0, PyNum.float 0⟩]⟩ :
        RunResult Unit Unit).scores.length = 1 ∧
    (logRecords (⟨(), (), [PyNum.float 0],
      [TraceEv.callAct, TraceEv.callStep, TraceEv.callStopEpisode,
       TraceEv.logEpisode ⟨0, 1, PyNum.int 0, PyNum.float 0, PyNum.float 0⟩]⟩ :
        RunResult Unit Unit).trace).length = 1 ∧
    (logRecords (⟨(), (), [PyNum.float 0],
      [TraceEv.callAct, TraceEv.callStep, TraceEv.callStopEpisode,
       TraceEv.logEpisode ⟨0, 1, PyNum.int 0, PyNum.float 0, PyNum.float 0⟩]⟩ :
        RunResult Unit Unit).trace).map LogRecord.idx = List.range 1 :=
  C6_stub_run_and_per_episode_records.2 intWorld none 1 none 1 () ()
    ⟨(), (), [PyNum.float 0],
      [TraceEv.callAct, TraceEv.callStep, TraceEv.callStopEpisode,
       TraceEv.logEpisode ⟨0, 1, PyNum.int 0, PyNum.float 0, PyNum.float 0⟩]⟩
    (by decide)
